import Mathlib

/-!
Verification development for the yagcl-env environment-variable decoding
engine (env.go). The Go source is shallowly embedded: strings are lists of
characters (Go iterates runes; all delimiters in play are one-byte),
reflect values become the inductive GoValue, reflect types become the
inductive TypeShape, and the in-place mutation performed through reflect
references becomes explicit state passing. Errors and runtime panics are
modelled by the inductive GoErr; the textual payload of Go error messages
is not modelled, only the identity of each distinct error site.

Omitted from the universe, as no verified claim touches them: float and
duration kinds (their grammars are orthogonal to the claims) and types
implementing encoding.TextUnmarshaler (no type of this universe has a
custom decoder, so the dispatch in envSourceImpl.parse is a no-op here).
-/

namespace YagclEnv

/-! ## Escape-aware splitter (env.go, splitString) -/

/-- Loop body of splitString (env.go lines 1086-1114). Arguments: remaining
input, current buffer, escapeNext flag. The singleton case is the source's
"index == maxIndex" branch, the empty case is the loop over an empty
literal (which never appends to values). -/
def splitGo (splitChar : Char) : List Char → List Char → Bool → List (List Char)
  | [], _, _ => []
  | [character], buffer, escapeNext =>
    if character != splitChar || escapeNext then [buffer ++ [character]] else [buffer]
  | character :: rest, buffer, escapeNext =>
    if character == splitChar && !escapeNext then buffer :: splitGo splitChar rest [] false
    else if character == '\\' && !escapeNext then splitGo splitChar rest buffer true
    else splitGo splitChar rest (buffer ++ [character]) false

/-- splitString splits the given literal at each splitChar found, with
backslash escaping (env.go lines 1083-1114). -/
def splitString (literal : List Char) (splitChar : Char) : List (List Char) :=
  splitGo splitChar literal [] false

/-- Modelled from the spec: reference splitter transcribing the claim text,
splitting at every unescaped delimiter occurrence, a backslash escaping the
immediately following character and a trailing unescaped backslash being
retained literally. -/
def splitSpecAux (c : Char) : List Char → List Char → List (List Char)
  | [], buf => [buf]
  | ['\\'], buf => [buf ++ ['\\']]
  | '\\' :: x :: rest, buf => splitSpecAux c rest (buf ++ [x])
  | x :: rest, buf =>
    if x = c then buf :: splitSpecAux c rest [] else splitSpecAux c rest (buf ++ [x])

/-- Modelled from the spec: top level of the reference splitter. -/
def splitSpec (literal : List Char) (c : Char) : List (List Char) :=
  splitSpecAux c literal []

/-- Reference splitter amended to the observed behaviour: a trailing
unescaped delimiter does not open a final empty element, and the empty
input yields the empty sequence. -/
def splitSpecAmendedAux (c : Char) : List Char → List Char → List (List Char)
  | [], buf => [buf]
  | ['\\'], buf => [buf ++ ['\\']]
  | [x], buf => if x = c then [buf] else [buf ++ [x]]
  | '\\' :: x :: rest, buf => splitSpecAmendedAux c rest (buf ++ [x])
  | x :: rest, buf =>
    if x = c then buf :: splitSpecAmendedAux c rest []
    else splitSpecAmendedAux c rest (buf ++ [x])

/-- Top level of the amended reference splitter. -/
def splitSpecAmended (literal : List Char) (c : Char) : List (List Char) :=
  if literal.isEmpty then [] else splitSpecAmendedAux c literal []

/-- Number of unescaped occurrences of a character, following the claim's
escaping convention: a backslash escapes the immediately following
character (intended for counted characters other than the backslash). -/
def countUnescaped (c : Char) : List Char → Nat
  | [] => 0
  | ['\\'] => 0
  | '\\' :: _ :: rest => countUnescaped c rest
  | x :: rest => (if x = c then 1 else 0) + countUnescaped c rest

/-! ## Data model: type shapes, field schema, values, errors -/

/-- Per-field schema data. The env tag and the fallback key model the
struct tag lookup and the external ParsingCompanion.ExtractFieldKey;
included models ParsingCompanion.IncludeField. An empty string models an
unset tag, as in the source's emptiness checks. -/
structure FieldInfo where
  name : String
  envTag : String
  fallbackKey : String
  included : Bool

/-- Closed classification of a declared Go type by reflect kind, as
dispatched on by parseValue. Bit widths mirror int(fieldType.Size())*8.
unsafePtrT models the unsafe.Pointer kind. -/
inductive TypeShape where
  | str
  | intT (bits : Nat)
  | uintT (bits : Nat)
  | boolT
  | structT (fields : List (FieldInfo × TypeShape))
  | ptr (inner : TypeShape)
  | sliceT (elem : TypeShape)
  | arrayT (len : Nat) (elem : TypeShape)
  | mapT (key elem : TypeShape)
  | complexT
  | unsafePtrT

/-- Go values as held in reflect.Value, with nil-ness of pointers, slices
and maps made explicit. otherV carries values of kinds whose contents the
development never inspects (complex, unsafe.Pointer). -/
inductive GoValue where
  | str (s : List Char)
  | intV (n : Int)
  | uintV (n : Nat)
  | boolV (b : Bool)
  | ptrV (v : Option GoValue)
  | structV (fields : List GoValue)
  | sliceV (elems : Option (List GoValue))
  | mapV (entries : Option (List (GoValue × GoValue)))
  | arrayV (elems : List GoValue)
  | otherV

/-- Identity of the distinct parse-failure sites wrapping yagcl.ErrParseValue. -/
inductive PVKind where
  | plain
  | mapNoEquals
  | mapTooManyEquals
  | mapBadKey
  | mapBadValue
  | arrayLength
  deriving DecidableEq

/-- Outcomes other than a parsed value: the wrapped yagcl error classes,
the internal embedded-struct sentinel, and a Go runtime panic (which in Go
aborts rather than returns; it is threaded as an outcome here). -/
inductive GoErr where
  | parseErr (kind : PVKind)
  | unsupportedType
  | missingKey
  | embeddedStruct
  | panicked
  deriving DecidableEq

/-- An error wrapping yagcl.ErrParseValue. -/
def GoErr.isParseValueErr : GoErr → Bool
  | .parseErr _ => true
  | _ => false

/-- The spec's FormatError subclass: the two malformed-map-entry sites. -/
def GoErr.isFormatErr : GoErr → Bool
  | .parseErr .mapNoEquals => true
  | .parseErr .mapTooManyEquals => true
  | _ => false

/-- The error wrapping yagcl.ErrUnsupportedFieldType. -/
def GoErr.isUnsupported : GoErr → Bool
  | .unsupportedType => true
  | _ => false

/-- extractNonPointerFieldType (env.go lines 1157-1163). -/
def extractNonPointerFieldType : TypeShape → TypeShape
  | .ptr inner => extractNonPointerFieldType inner
  | t => t

/-- Kind test: reflect.Struct. -/
def TypeShape.isStructKind : TypeShape → Bool
  | .structT _ => true
  | _ => false

/-- Kind test: reflect.Pointer. -/
def TypeShape.isPtrKind : TypeShape → Bool
  | .ptr _ => true
  | _ => false

/-- Kind test on values: reflect.Pointer. -/
def GoValue.isPtrKind : GoValue → Bool
  | .ptrV _ => true
  | _ => false

/-- Number of pointer hops in the static declared type. -/
def ptrDepth : TypeShape → Nat
  | .ptr inner => ptrDepth inner + 1
  | _ => 0

/-- A chain of n non-nil pointer hops ending at a base value. -/
def wrapChain : Nat → GoValue → GoValue
  | 0, v => v
  | n + 1, v => .ptrV (some (wrapChain n v))

/-- reflect.Value.IsZero over this universe: zero numerics, empty string,
false, nil pointer/slice/map, all-zero struct and array fields. -/
def isZero : GoValue → Bool
  | .str s => s.isEmpty
  | .intV n => n == 0
  | .uintV n => n == 0
  | .boolV b => !b
  | .ptrV p => p.isNone
  | .sliceV o => o.isNone
  | .mapV o => o.isNone
  | .structV fs => isZeroList fs
  | .arrayV xs => isZeroList xs
  | .otherV => true
where isZeroList : List GoValue → Bool
  | [] => true
  | v :: rest => isZero v && isZeroList rest

/-- The zero value of a type shape (reflect.New(...).Elem()). -/
def zeroValue : TypeShape → GoValue
  | .str => .str []
  | .intT _ => .intV 0
  | .uintT _ => .uintV 0
  | .boolT => .boolV false
  | .structT fs => .structV (zeroValuesOf fs)
  | .ptr _ => .ptrV none
  | .sliceT _ => .sliceV none
  | .arrayT n et => .arrayV (List.replicate n (zeroValue et))
  | .mapT _ _ => .mapV none
  | .complexT => .otherV
  | .unsafePtrT => .otherV
where zeroValuesOf : List (FieldInfo × TypeShape) → List GoValue
  | [] => []
  | (_, t) :: rest => zeroValue t :: zeroValuesOf rest

/-- convertValueToPointerIfRequired (env.go lines 898-917): for a
pointer-typed target the source allocates one fresh cell per static
pointer hop of the target type and links them ending at newValue; that
loop is this recursion on the target shape. For non-pointer targets it is
a no-op. -/
def convertValueToPointerIfRequired : TypeShape → GoValue → GoValue
  | .ptr inner, newValue => .ptrV (some (convertValueToPointerIfRequired inner newValue))
  | _, newValue => newValue

/-- extractDeepestPotentialPointer (env.go lines 1145-1155): walk a
pointer chain to its innermost pointer; a nil pointer (whose Elem has
Invalid kind) and a non-pointer value are returned as-is. -/
def extractDeepestPotentialPointer : GoValue → GoValue
  | .ptrV (some (.ptrV p)) => extractDeepestPotentialPointer (.ptrV p)
  | v => v

/-- Functional counterpart of mutating, through reflect references, the
target of the deepest pointer of a chain: rebuilds the chain with the
innermost pointer now pointing at newBase. -/
def replaceDeepestTarget : GoValue → GoValue → GoValue
  | .ptrV (some (.ptrV p)), newBase => .ptrV (some (replaceDeepestTarget (.ptrV p) newBase))
  | .ptrV (some _), newBase => .ptrV (some newBase)
  | v, _ => v

/-! ## Primitive grammars (strconv, strings.EqualFold) -/

/-- Accumulating base-10 digit parse; fails on any non-digit. -/
def digitsVal : List Char → Nat → Option Nat
  | [], acc => some acc
  | d :: rest, acc =>
    if d.isDigit then digitsVal rest (acc * 10 + (d.toNat - '0'.toNat)) else none

/-- strconv.ParseUint(s, 10, bits): digits only (no sign), nonempty, in
range for the bit width. -/
def parseUintGo (s : List Char) (bits : Nat) : Option Nat :=
  match s with
  | [] => none
  | ds =>
    match digitsVal ds 0 with
    | none => none
    | some n => if n ≤ 2 ^ bits - 1 then some n else none

/-- strconv.ParseInt(s, 10, bits): optional single sign, nonempty digit
run, value within the signed bit-width range. -/
def parseIntGo (s : List Char) (bits : Nat) : Option Int :=
  let signSplit : Bool × List Char :=
    match s with
    | '+' :: r => (false, r)
    | '-' :: r => (true, r)
    | r => (false, r)
  match signSplit.2 with
  | [] => none
  | ds =>
    match digitsVal ds 0 with
    | none => none
    | some n =>
      let v : Int := if signSplit.1 then -(n : Int) else (n : Int)
      if -((2 : Int) ^ (bits - 1)) ≤ v ∧ v ≤ (2 : Int) ^ (bits - 1) - 1 then some v else none

/-- strings.EqualFold, modelled as comparison after simple lowercasing
(coincides with Go's fold for the ASCII literals in play). -/
def eqFold (a b : List Char) : Bool :=
  (a.map Char.toLower) == (b.map Char.toLower)

/-! ## Collection parsing helpers -/

/-- Go map key comparability over this universe: map key types in Go are
restricted to comparable non-composite kinds, so value equality is defined
on those; composite keys (which cannot occur as Go map key types) compare
unequal. -/
def gvKeyBeq : GoValue → GoValue → Bool
  | .str a, .str b => a == b
  | .intV a, .intV b => a == b
  | .uintV a, .uintV b => a == b
  | .boolV a, .boolV b => a == b
  | _, _ => false

/-- reflect SetMapIndex: insert or overwrite by key. -/
def setMapIndex (acc : List (GoValue × GoValue)) (k v : GoValue) : List (GoValue × GoValue) :=
  match acc with
  | [] => [(k, v)]
  | (k0, v0) :: rest =>
    if gvKeyBeq k0 k then (k0, v) :: rest else (k0, v0) :: setMapIndex rest k v

/-- Loop over map entries (env.go lines 1010-1029), parameterised by the
key and element parsers. Checks the split length exactly as the source
(== 1, then > 2) and then indexes components 0 and 1; a missing component
is the source's out-of-range panic. Key and element parse failures are
wrapped as fresh ParseValue errors, discarding the inner error. -/
def parseMapEntries (pk pv : List Char → Except GoErr GoValue) :
    List (List Char) → List (GoValue × GoValue) → Except GoErr (List (GoValue × GoValue))
  | [], acc => .ok acc
  | entry :: rest, acc =>
    let keyValue := splitString entry '='
    if keyValue.length == 1 then .error (.parseErr .mapNoEquals)
    else if keyValue.length > 2 then .error (.parseErr .mapTooManyEquals)
    else
      match keyValue[0]? with
      | none => .error .panicked
      | some kText =>
        match keyValue[1]? with
        | none => .error .panicked
        | some vText =>
          match pk kText with
          | .error _ => .error (.parseErr .mapBadKey)
          | .ok kVal =>
            match pv vText with
            | .error _ => .error (.parseErr .mapBadValue)
            | .ok vVal => parseMapEntries pk pv rest (setMapIndex acc kVal vVal)

/-- parseIntoArray (env.go lines 1133-1143), parameterised by the element
parser and by the pointer wrapping applied when setting each index. -/
def parseIntoArray (pe : List Char → Except GoErr GoValue) (wrap : GoValue → GoValue) :
    List (List Char) → Except GoErr (List GoValue)
  | [] => .ok []
  | rawValue :: rest =>
    match pe rawValue with
    | .error e => .error e
    | .ok v => (parseIntoArray pe wrap rest).map (fun tail => wrap v :: tail)

/-- isSliceTypeSupported (env.go lines 1116-1131). -/
def isSliceTypeSupported (sliceType : TypeShape) : Bool :=
  match extractNonPointerFieldType sliceType with
  | .unsafePtrT => false
  | .complexT => false
  | .structT _ => false
  | .arrayT _ _ => false
  | .sliceT _ => false
  | _ => true

/-! ## parseValue (env.go lines 934-1081) -/

/-- parseValue dispatch by kind. The pointer case in the source jumps
directly to the non-pointer base type after checking it for struct-ness;
stripping one pointer per step with the same check is extensionally
identical, since the base of the inner type is the base of the pointer
type. Conversion to alias types (parsed.Convert) is the identity here. -/
def parseValue : TypeShape → List Char → Except GoErr GoValue
  | .str => fun envValue => .ok (.str envValue)
  | .intT bits => fun envValue =>
    match parseIntGo envValue bits with
    | none => .error (.parseErr .plain)
    | some n => .ok (.intV n)
  | .uintT bits => fun envValue =>
    match parseUintGo envValue bits with
    | none => .error (.parseErr .plain)
    | some n => .ok (.uintV n)
  | .boolT => fun envValue =>
    let boolValue := eqFold envValue "true".data
    if !boolValue && !(eqFold envValue "false".data) then .error (.parseErr .plain)
    else .ok (.boolV boolValue)
  | .structT _ => fun _ => .error .embeddedStruct
  | .ptr inner => fun envValue =>
    if (extractNonPointerFieldType inner).isStructKind then .error .embeddedStruct
    else parseValue inner envValue
  | .mapT kt vt =>
    let pk := parseValue kt
    let pv := parseValue vt
    fun envValue =>
      (parseMapEntries pk pv (splitString envValue ',') []).map (fun l => .mapV (some l))
  | .sliceT et =>
    let pe := parseValue et
    fun envValue =>
      if !isSliceTypeSupported et then .error .unsupportedType
      else
        (parseIntoArray pe (convertValueToPointerIfRequired et) (splitString envValue ',')).map
          (fun l => .sliceV (some l))
  | .arrayT n et =>
    let pe := parseValue et
    fun envValue =>
      if !isSliceTypeSupported et then .error .unsupportedType
      else
        let arrayRawValues := splitString envValue ','
        if n ≠ arrayRawValues.length then .error (.parseErr .arrayLength)
        else (parseIntoArray pe (convertValueToPointerIfRequired et) arrayRawValues).map .arrayV
  | .complexT => fun _ => .error .unsupportedType
  | .unsafePtrT => fun _ => .error .unsupportedType

/-! ## Key derivation (env.go lines 623-652, 919-932) -/

/-- defaultKeyValueConverter: strings.ToUpper, modelled by charwise simple
uppercasing (identical for the ASCII keys in play). -/
def defaultKeyValueConverter (s : String) : String :=
  ⟨s.data.map Char.toUpper⟩

/-- strings.Trim with cutset consisting of the underscore character. -/
def goTrimUnderscore (s : String) : String :=
  ⟨((s.data.dropWhile (· = '_')).reverse.dropWhile (· = '_')).reverse⟩

/-- defaultKeyJoiner (env.go lines 636-647). -/
def defaultKeyJoiner (s1 s2 : String) : String :=
  if s1 = "" then s2
  else goTrimUnderscore s1 ++ "_" ++ goTrimUnderscore s2

/-- extractEnvKey (env.go lines 919-932): the env tag verbatim when
non-empty, else the companion fallback key through the converter when
non-empty, else the missing-key error. -/
def extractEnvKey (conv : String → String) (info : FieldInfo) : Except GoErr String :=
  if info.envTag ≠ "" then .ok info.envTag
  else if info.fallbackKey ≠ "" then .ok (conv info.fallbackKey)
  else .error .missingKey

/-! ## The decode driver (envSourceImpl.parse, env.go lines 781-889)

The TextUnmarshaler dispatch (lines 816-844) is a no-op over this universe
(no modelled type has a custom decoder). reflect's in-place mutation of a
struct reached through references becomes returning the updated value; the
zero-result check (line 878) therefore appears both after a direct parse
and after the freshly-allocated-struct recursion, matching the single
source site both paths flow through. -/

/-- Stripping pointers never increases the size measure; recursive proof
used for the termination of the decode driver below. -/
def nonPtrSizeLe : (t : TypeShape) → sizeOf (extractNonPointerFieldType t) ≤ sizeOf t
  | .ptr inner => by
    have ih := nonPtrSizeLe inner
    simp only [extractNonPointerFieldType, TypeShape.ptr.sizeOf_spec]
    omega
  | .str => by simp [extractNonPointerFieldType]
  | .intT _ => by simp [extractNonPointerFieldType]
  | .uintT _ => by simp [extractNonPointerFieldType]
  | .boolT => by simp [extractNonPointerFieldType]
  | .structT _ => by simp [extractNonPointerFieldType]
  | .sliceT _ => by simp [extractNonPointerFieldType]
  | .arrayT _ _ => by simp [extractNonPointerFieldType]
  | .mapT _ _ => by simp [extractNonPointerFieldType]
  | .complexT => by simp [extractNonPointerFieldType]
  | .unsafePtrT => by simp [extractNonPointerFieldType]

/-- The struct-shape test with field extraction used by the recursion
sites: the value of extractNonPointerFieldType when it is a struct. -/
def asStructFields : TypeShape → Option (List (FieldInfo × TypeShape))
  | .structT sf => some sf
  | _ => none

/-- The fields of the struct held by a reflect struct value. -/
def asStructVal : GoValue → Option (List GoValue)
  | .structV vs => some vs
  | _ => none

/-- The struct allocation targeted by a deepest (innermost) non-nil
pointer, when it holds a struct. -/
def asDeepBase : GoValue → Option (List GoValue)
  | .ptrV (some (.structV vs)) => some vs
  | _ => none

/-- The pointed-to type of a pointer shape (reflect Type.Elem for the
pointer kind). -/
def elemShape : TypeShape → Option TypeShape
  | .ptr inner => some inner
  | _ => none

/-- Lines 878-885 of the source: a zero parse result leaves the field
untouched; otherwise the result is converted (identity here) and wrapped
to the field's static pointer depth, becoming the new field value. -/
def finishParsed (shape : TypeShape) (value parsed : GoValue) : Except GoErr GoValue :=
  if isZero parsed then .ok value
  else .ok (convertValueToPointerIfRequired shape parsed)

mutual

/-- Lines 848-876 of the source: handling of the embedded-struct sentinel.
Either recurse in place into a bare struct, or in place into the deepest
allocation of a non-nil pointer chain, or allocate a fresh zero struct,
recurse into it, and fall through to the zero-check-and-assign step. -/
def recurseStruct (conv : String → String) (join : String → String → String)
    (lookup : String → Option String) (joinedEnvKey : String)
    (shape : TypeShape) (value : GoValue) :
    Except GoErr GoValue :=
  if (extractDeepestPotentialPointer value).isPtrKind = false then
    match _h2 : asStructFields (extractNonPointerFieldType shape), asStructVal value with
    | some sf, some vs =>
      match parseFields conv join lookup joinedEnvKey sf vs with
      | .error e2 => .error e2
      | .ok vs2 => .ok (.structV vs2)
    | _, _ => .error .panicked
  else if isZero (extractDeepestPotentialPointer value) = false then
    match _h3 : asStructFields (extractNonPointerFieldType shape),
        asDeepBase (extractDeepestPotentialPointer value) with
    | some sf, some vs =>
      match parseFields conv join lookup joinedEnvKey sf vs with
      | .error e2 => .error e2
      | .ok vs2 => .ok (replaceDeepestTarget value (.structV vs2))
    | _, _ => .error .panicked
  else
    match _h4 : elemShape shape with
    | none => .error .panicked
    | some inner =>
      match _h5 : asStructFields (extractNonPointerFieldType inner) with
      | none => .error .panicked
      | some sf =>
        match parseFields conv join lookup joinedEnvKey sf (zeroValue.zeroValuesOf sf) with
        | .error e2 => .error e2
        | .ok vs2 => finishParsed shape value (.structV vs2)
termination_by sizeOf shape
decreasing_by
  · have hs := nonPtrSizeLe shape
    revert _h2 hs
    cases extractNonPointerFieldType shape <;> intro _h2 hs <;>
      simp only [asStructFields, Option.some.injEq, reduceCtorEq] at _h2
    subst _h2
    simp only [TypeShape.structT.sizeOf_spec] at hs
    omega
  · have hs := nonPtrSizeLe shape
    revert _h3 hs
    cases extractNonPointerFieldType shape <;> intro _h3 hs <;>
      simp only [asStructFields, Option.some.injEq, reduceCtorEq] at _h3
    subst _h3
    simp only [TypeShape.structT.sizeOf_spec] at hs
    omega
  · have hs := nonPtrSizeLe inner
    have hi : sizeOf inner < sizeOf shape := by
      revert _h4
      cases shape <;> intro _h4 <;>
        simp only [elemShape, Option.some.injEq, reduceCtorEq] at _h4
      subst _h4
      simp only [TypeShape.ptr.sizeOf_spec]
      omega
    revert _h5 hs
    cases extractNonPointerFieldType inner <;> intro _h5 hs <;>
      simp only [asStructFields, Option.some.injEq, reduceCtorEq] at _h5
    subst _h5
    simp only [TypeShape.structT.sizeOf_spec] at hs
    omega

/-- One iteration of the field loop of envSourceImpl.parse, for the field
described by info and shape whose current value is given; returns the
field's new value or the first error. -/
def processField (conv : String → String) (join : String → String → String)
    (lookup : String → Option String) (pre : String)
    (info : FieldInfo) (shape : TypeShape) (value : GoValue) :
    Except GoErr GoValue :=
  if !info.included then .ok value
  else
    match extractEnvKey conv info with
    | .error e => .error e
    | .ok envKey =>
      let joinedEnvKey := join pre envKey
      let lk := lookup joinedEnvKey
      if lk.isNone && !(shape.isStructKind || shape.isPtrKind) then .ok value
      else
        let envValue := lk.getD ""
        match parseValue shape envValue.data with
        | .ok parsed => finishParsed shape value parsed
        | .error e =>
          if e ≠ .embeddedStruct then .error e
          else recurseStruct conv join lookup joinedEnvKey shape value
termination_by sizeOf shape + 1
decreasing_by
  omega

/-- The field loop of envSourceImpl.parse over the (schema, value) field
lists of a struct, in declaration order, failing fast on the first
error. -/
def parseFields (conv : String → String) (join : String → String → String)
    (lookup : String → Option String) (pre : String) :
    List (FieldInfo × TypeShape) → List GoValue → Except GoErr (List GoValue)
  | [], values => .ok values
  | _ :: _, [] => .error .panicked
  | (info, shape) :: restFields, value :: restValues =>
    match processField conv join lookup pre info shape value with
    | .error e => .error e
    | .ok value2 =>
      match parseFields conv join lookup pre restFields restValues with
      | .error e => .error e
      | .ok rest2 => .ok (value2 :: rest2)
termination_by fields _ => sizeOf fields
decreasing_by
  · simp only [List.cons.sizeOf_spec, Prod.mk.sizeOf_spec]; omega
  · simp only [List.cons.sizeOf_spec]; omega

end

/-! ## Spec-side reference definitions for the map grammar -/

/-- Modelled from the spec (amended): classification and parsing of one
map entry. The entry is split on unescaped equals signs by the
escape-aware splitter (which drops a trailing unescaped delimiter); one
component is the no-separator FormatError, more than two components the
too-many FormatError, zero components (the empty entry) the out-of-range
access, and exactly two components are the key and value texts, parsed
recursively with failures reported as ParseValue. -/
def mapEntrySpec (pk pv : List Char → Except GoErr GoValue) (entry : List Char) :
    Except GoErr (GoValue × GoValue) :=
  match splitSpecAmended entry '=' with
  | [] => .error .panicked
  | [_] => .error (.parseErr .mapNoEquals)
  | [kText, vText] =>
    match pk kText with
    | .error _ => .error (.parseErr .mapBadKey)
    | .ok k =>
      match pv vText with
      | .error _ => .error (.parseErr .mapBadValue)
      | .ok v => .ok (k, v)
  | _ => .error (.parseErr .mapTooManyEquals)

/-- Modelled from the spec (amended): fold of mapEntrySpec over the
entries, inserting into the map in order. -/
def mapSpecEntries (pk pv : List Char → Except GoErr GoValue) :
    List (List Char) → List (GoValue × GoValue) → Except GoErr (List (GoValue × GoValue))
  | [], acc => .ok acc
  | entry :: rest, acc =>
    match mapEntrySpec pk pv entry with
    | .error e => .error e
    | .ok (k, v) => mapSpecEntries pk pv rest (setMapIndex acc k v)

/-- Modelled from the spec (amended): map parsing splits the raw text on
unescaped commas into entries and folds mapEntrySpec over them. -/
def mapParseSpec (kt vt : TypeShape) (s : List Char) : Except GoErr GoValue :=
  (mapSpecEntries (parseValue kt) (parseValue vt) (splitSpecAmended s ',') []).map
    (fun l => .mapV (some l))

/-- Whether a parse outcome is the unsupported-type failure. -/
def isUnsupportedOutcome : Except GoErr GoValue → Bool
  | .error .unsupportedType => true
  | _ => false

/-! ## Recursive auxiliary facts (stated as proofs by recursion so they can
sit with the definitions they serve) -/

/-- Pointer wrapping always produces the chain of the static pointer
depth, ending at the given value. -/
def convertEqWrapChain : (t : TypeShape) → ∀ v : GoValue,
    convertValueToPointerIfRequired t v = wrapChain (ptrDepth t) v
  | .ptr inner => fun v => by
    rw [convertValueToPointerIfRequired, ptrDepth, wrapChain, convertEqWrapChain inner v]
  | .str => fun v => by simp [convertValueToPointerIfRequired, ptrDepth, wrapChain]
  | .intT _ => fun v => by simp [convertValueToPointerIfRequired, ptrDepth, wrapChain]
  | .uintT _ => fun v => by simp [convertValueToPointerIfRequired, ptrDepth, wrapChain]
  | .boolT => fun v => by simp [convertValueToPointerIfRequired, ptrDepth, wrapChain]
  | .structT _ => fun v => by simp [convertValueToPointerIfRequired, ptrDepth, wrapChain]
  | .sliceT _ => fun v => by simp [convertValueToPointerIfRequired, ptrDepth, wrapChain]
  | .arrayT _ _ => fun v => by simp [convertValueToPointerIfRequired, ptrDepth, wrapChain]
  | .mapT _ _ => fun v => by simp [convertValueToPointerIfRequired, ptrDepth, wrapChain]
  | .complexT => fun v => by simp [convertValueToPointerIfRequired, ptrDepth, wrapChain]
  | .unsafePtrT => fun v => by simp [convertValueToPointerIfRequired, ptrDepth, wrapChain]

/-- The map-entry loop never reports the embedded-struct sentinel or the
unsupported-type error: every inner failure is wrapped as ParseValue. -/
def parseMapEntriesErrClass (pk pv : List Char → Except GoErr GoValue) :
    ∀ (es : List (List Char)) (acc : List (GoValue × GoValue)),
      parseMapEntries pk pv es acc ≠ .error .embeddedStruct ∧
      parseMapEntries pk pv es acc ≠ .error .unsupportedType
  | [], acc => by simp [parseMapEntries]
  | e :: rest, acc => by
    rw [parseMapEntries]
    by_cases h1 : ((splitString e '=').length == 1) = true
    · simp [h1]
    · by_cases h2 : (splitString e '=').length > 2
      · simp [h1, h2]
      · simp only [h1, h2, Bool.false_eq_true, if_false]
        cases (splitString e '=')[0]? with
        | none => simp
        | some kText =>
          cases (splitString e '=')[1]? with
          | none => simp
          | some vText =>
            cases hk : pk kText with
            | error ek => simp [hk]
            | ok kVal =>
              cases hv : pv vText with
              | error ev => simp [hk, hv]
              | ok vVal =>
                simp only [hk, hv]
                exact parseMapEntriesErrClass pk pv rest (setMapIndex acc kVal vVal)

/-- The element loop of slice and array parsing only propagates failures
of the element parser. -/
def parseIntoArrayErrPe (pe : List Char → Except GoErr GoValue) (wrap : GoValue → GoValue)
    (bad : GoErr) (hpe : ∀ r, pe r ≠ .error bad) :
    ∀ rvs : List (List Char), parseIntoArray pe wrap rvs ≠ .error bad
  | [] => by simp [parseIntoArray]
  | r :: rest => by
    rw [parseIntoArray]
    cases hr : pe r with
    | error e =>
      intro hcontra
      simp only [Except.error.injEq] at hcontra
      subst hcontra
      exact hpe r hr
    | ok v =>
      have ih := parseIntoArrayErrPe pe wrap bad hpe rest
      cases h2 : parseIntoArray pe wrap rest with
      | error e2 =>
        intro hcontra
        simp only [Except.map, h2, Except.error.injEq] at hcontra
        subst hcontra
        exact ih h2
      | ok l => simp [h2, Except.map]

/-- parseValue reports the embedded-struct sentinel exactly for shapes
whose non-pointer base is a struct; every other shape never produces
it. -/
def parseValueNeEmbedded : (t : TypeShape) →
    (extractNonPointerFieldType t).isStructKind = false →
    ∀ s : List Char, parseValue t s ≠ .error .embeddedStruct
  | .str, _, s => by simp [parseValue]
  | .intT bits, _, s => by
    rw [parseValue]
    cases h : parseIntGo s bits <;> simp [h]
  | .uintT bits, _, s => by
    rw [parseValue]
    cases h : parseUintGo s bits <;> simp [h]
  | .boolT, _, s => by
    rw [parseValue]
    by_cases hb : (!eqFold s "true".data && !eqFold s "false".data) = true <;> simp [hb]
  | .structT sf, h, s => by
    exact absurd h (by simp [extractNonPointerFieldType, TypeShape.isStructKind])
  | .ptr inner, h, s => by
    rw [parseValue]
    have h2 : (extractNonPointerFieldType inner).isStructKind = false := h
    simp only [h2, Bool.false_eq_true, if_false]
    exact parseValueNeEmbedded inner h2 s
  | .mapT kt vt, _, s => by
    rw [parseValue]
    have hcl := parseMapEntriesErrClass (parseValue kt) (parseValue vt) (splitString s ',') []
    cases hme : parseMapEntries (parseValue kt) (parseValue vt) (splitString s ',') [] with
    | error e =>
      rw [hme] at hcl
      simp only [hme, Except.map]
      intro hcontra
      simp only [Except.error.injEq] at hcontra
      exact hcl.1 (by rw [hcontra])
    | ok l => simp [hme, Except.map]
  | .sliceT et, _, s => by
    rw [parseValue]
    by_cases hsup : isSliceTypeSupported et = true
    · have hets : (extractNonPointerFieldType et).isStructKind = false := by
        revert hsup
        rw [isSliceTypeSupported]
        cases extractNonPointerFieldType et <;>
          simp [TypeShape.isStructKind]
      have hpe := parseValueNeEmbedded et hets
      have hia := parseIntoArrayErrPe (parseValue et) (convertValueToPointerIfRequired et)
        (.embeddedStruct) hpe (splitString s ',')
      simp only [hsup, Bool.not_true, Bool.false_eq_true, if_false]
      cases h2 : parseIntoArray (parseValue et) (convertValueToPointerIfRequired et)
          (splitString s ',') with
      | error e2 =>
        rw [h2] at hia
        simp only [h2, Except.map]
        intro hcontra
        simp only [Except.error.injEq] at hcontra
        exact hia (by rw [hcontra])
      | ok l => simp [h2, Except.map]
    · simp only [Bool.not_eq_true] at hsup
      simp [hsup]
  | .arrayT n et, _, s => by
    rw [parseValue]
    by_cases hsup : isSliceTypeSupported et = true
    · have hets : (extractNonPointerFieldType et).isStructKind = false := by
        revert hsup
        rw [isSliceTypeSupported]
        cases extractNonPointerFieldType et <;>
          simp [TypeShape.isStructKind]
      have hpe := parseValueNeEmbedded et hets
      have hia := parseIntoArrayErrPe (parseValue et) (convertValueToPointerIfRequired et)
        (.embeddedStruct) hpe (splitString s ',')
      simp only [hsup, Bool.not_true, Bool.false_eq_true, if_false]
      by_cases hlen : n ≠ (splitString s ',').length
      · simp [hlen]
      · simp only [hlen, if_false]
        cases h2 : parseIntoArray (parseValue et) (convertValueToPointerIfRequired et)
            (splitString s ',') with
        | error e2 =>
          rw [h2] at hia
          simp only [h2, Except.map]
          intro hcontra
          simp only [Except.error.injEq] at hcontra
          exact hia (by rw [hcontra])
        | ok l => simp [h2, Except.map]
    · simp only [Bool.not_eq_true] at hsup
      simp [hsup]
  | .complexT, _, s => by simp [parseValue]
  | .unsafePtrT, _, s => by simp [parseValue]

/-! ## Helper lemmas: the splitter against its reference -/

theorem splitGo_singleton_esc (c x : Char) (buf : List Char) :
    splitGo c [x] buf true = [buf ++ [x]] := by
  simp [splitGo]

theorem splitGo_escStep (c x r : Char) (rs buf : List Char) :
    splitGo c (x :: r :: rs) buf true = splitGo c (r :: rs) (buf ++ [x]) false := by
  simp [splitGo]

theorem splitGo_eq_amendedAux (c : Char) (hc : c ≠ '\\') :
    ∀ l buf, l ≠ [] → splitGo c l buf false = splitSpecAmendedAux c l buf := by
  intro l buf hne
  induction l, buf using splitSpecAmendedAux.induct c with
  | case1 buf => exact (hne rfl).elim
  | case2 buf =>
    have hcc : ('\\' == c) = false := by simp [Ne.symm hc]
    simp [splitGo, splitSpecAmendedAux, hcc, Ne.symm hc]
  | case3 buf h1 =>
    simp [splitGo, splitSpecAmendedAux, hc]
  | case4 x buf h1 h2 =>
    simp [splitGo, splitSpecAmendedAux, h1, h2]
  | case5 x rest buf ih =>
    cases rest with
    | nil =>
      have hcc : ('\\' == c) = false := by simp [Ne.symm hc]
      simp [splitGo, splitSpecAmendedAux, hcc, splitGo_singleton_esc]
    | cons r rs =>
      have hcc : ('\\' == c) = false := by simp [Ne.symm hc]
      rw [show splitGo c ('\\' :: x :: r :: rs) buf false =
        splitGo c (x :: r :: rs) buf true by simp [splitGo, hcc]]
      rw [splitGo_escStep]
      rw [ih (by simp)]
      rw [splitSpecAmendedAux]
  | case6 rest buf h1 h2 h3 ih =>
    cases rest with
    | nil => exact (h1 rfl).elim
    | cons r rs =>
      have e1 : splitGo c (c :: r :: rs) buf false = buf :: splitGo c (r :: rs) [] false := by
        simp [splitGo]
      have e2 : splitSpecAmendedAux c (c :: r :: rs) buf =
          buf :: splitSpecAmendedAux c (r :: rs) [] := by
        rw [splitSpecAmendedAux]
        · simp
        · exact fun h => (hc h).elim
        · exact fun h => (List.cons_ne_nil r rs) h
        · exact fun _ _ h => (hc h).elim
      rw [e1, e2, ih (by simp)]
  | case7 x rest buf h1 h2 h3 h4 ih =>
    cases rest with
    | nil => exact (h2 rfl).elim
    | cons r rs =>
      have hx : (x == c) = false := by simp [h4]
      have hxb : (x == '\\') = false := by
        by_cases hxx : x = '\\'
        · exact ((h3 r rs hxx rfl).elim)
        · simp [hxx]
      have e1 : splitGo c (x :: r :: rs) buf false =
          splitGo c (r :: rs) (buf ++ [x]) false := by
        simp [splitGo, hx, hxb]
      have e2 : splitSpecAmendedAux c (x :: r :: rs) buf =
          splitSpecAmendedAux c (r :: rs) (buf ++ [x]) := by
        rw [splitSpecAmendedAux]
        · simp [h4]
        · exact h1
        · exact h2
        · exact h3
      rw [e1, e2, ih (by simp)]

/-- For every delimiter other than the escape character, the source
splitter coincides with the amended reference splitter. -/
theorem splitString_eq_amended (l : List Char) (c : Char) (hc : c ≠ '\\') :
    splitString l c = splitSpecAmended l c := by
  cases l with
  | nil => rfl
  | cons x rest =>
    rw [splitString, splitSpecAmended]
    simp only [List.isEmpty_cons, Bool.false_eq_true, if_false]
    exact splitGo_eq_amendedAux c hc (x :: rest) [] (by simp)

/-! ## Helper lemmas: map entry processing against its reference -/

/-- The source's map-entry loop coincides with the spec-side fold for
every pair of key and element parsers. -/
theorem mapEntries_eq_spec (pk pv : List Char → Except GoErr GoValue) :
    ∀ es acc, parseMapEntries pk pv es acc = mapSpecEntries pk pv es acc := by
  intro es
  induction es with
  | nil => intro acc; rfl
  | cons e rest ih =>
    intro acc
    rw [parseMapEntries, mapSpecEntries, mapEntrySpec]
    rw [← splitString_eq_amended e '=' (by decide)]
    cases h : splitString e '=' with
    | nil => simp
    | cons a as =>
      cases as with
      | nil => simp
      | cons b bs =>
        cases bs with
        | nil =>
          simp only [List.length_cons, List.length_nil, Nat.reduceAdd]
          norm_num
          cases hk : pk a with
          | error ek => simp [hk]
          | ok kv =>
            cases hv : pv b with
            | error ev => simp [hk, hv]
            | ok vv => simp [hk, hv, ih]
        | cons c2 cs =>
          simp only [List.length_cons]
          norm_num

/-! ## Helper lemmas: behaviour of the decode driver, case by case -/

theorem processField_notIncluded (conv : String → String) (join : String → String → String)
    (lookup : String → Option String) (pre : String) (info : FieldInfo)
    (shape : TypeShape) (value : GoValue)
    (hInc : info.included = false) :
    processField conv join lookup pre info shape value = .ok value := by
  rw [processField.eq_def]
  simp [hInc]

theorem processField_skip (conv : String → String) (join : String → String → String)
    (lookup : String → Option String) (pre : String) (info : FieldInfo)
    (shape : TypeShape) (value : GoValue) (ek : String)
    (hKey : extractEnvKey conv info = .ok ek)
    (hLk : lookup (join pre ek) = none)
    (hS : shape.isStructKind = false) (hA : shape.isPtrKind = false) :
    processField conv join lookup pre info shape value = .ok value := by
  rw [processField.eq_def]
  cases hInc : info.included with
  | false => simp [hInc]
  | true => simp [hInc, hKey, hLk, hS, hA]

theorem processField_parsed (conv : String → String) (join : String → String → String)
    (lookup : String → Option String) (pre : String) (info : FieldInfo)
    (shape : TypeShape) (value : GoValue) (ek : String) (raw : String) (v : GoValue)
    (hInc : info.included = true)
    (hKey : extractEnvKey conv info = .ok ek)
    (hLk : lookup (join pre ek) = some raw)
    (hP : parseValue shape raw.data = .ok v) :
    processField conv join lookup pre info shape value = finishParsed shape value v := by
  rw [processField.eq_def]
  simp [hInc, hKey, hLk, hP]

theorem processField_err (conv : String → String) (join : String → String → String)
    (lookup : String → Option String) (pre : String) (info : FieldInfo)
    (shape : TypeShape) (value : GoValue) (ek : String) (raw : String) (e : GoErr)
    (hInc : info.included = true)
    (hKey : extractEnvKey conv info = .ok ek)
    (hLk : lookup (join pre ek) = some raw)
    (hP : parseValue shape raw.data = .error e)
    (hNe : e ≠ .embeddedStruct) :
    processField conv join lookup pre info shape value = .error e := by
  rw [processField.eq_def]
  simp [hInc, hKey, hLk, hP, hNe]

theorem processField_absent_ptr_err (conv : String → String) (join : String → String → String)
    (lookup : String → Option String) (pre : String) (info : FieldInfo)
    (shape : TypeShape) (value : GoValue) (ek : String) (e : GoErr)
    (hInc : info.included = true)
    (hKey : extractEnvKey conv info = .ok ek)
    (hLk : lookup (join pre ek) = none)
    (hPtr : shape.isPtrKind = true)
    (hP : parseValue shape "".data = .error e)
    (hNe : e ≠ .embeddedStruct) :
    processField conv join lookup pre info shape value = .error e := by
  rw [processField.eq_def]
  simp [hInc, hKey, hLk, hPtr, hP, hNe]

theorem processField_embedded (conv : String → String) (join : String → String → String)
    (lookup : String → Option String) (pre : String) (info : FieldInfo)
    (shape : TypeShape) (value : GoValue) (ek : String)
    (hInc : info.included = true)
    (hKey : extractEnvKey conv info = .ok ek)
    (hSP : shape.isStructKind = true ∨ shape.isPtrKind = true)
    (hP : ∀ s : List Char, parseValue shape s = .error .embeddedStruct) :
    processField conv join lookup pre info shape value =
      recurseStruct conv join lookup (join pre ek) shape value := by
  rw [processField.eq_def]
  rcases hSP with h | h
  · cases hLk : lookup (join pre ek) <;> simp [hInc, hKey, hLk, h, hP]
  · cases hLk : lookup (join pre ek) <;> simp [hInc, hKey, hLk, h, hP]

theorem recurseStruct_bare (conv : String → String) (join : String → String → String)
    (lookup : String → Option String) (joined : String)
    (shape : TypeShape) (sf : List (FieldInfo × TypeShape)) (vs : List GoValue)
    (hSF : extractNonPointerFieldType shape = .structT sf) :
    recurseStruct conv join lookup joined shape (.structV vs) =
      (parseFields conv join lookup joined sf vs).map GoValue.structV := by
  rw [recurseStruct.eq_def]
  simp only [extractDeepestPotentialPointer, GoValue.isPtrKind, if_true, eq_self_iff_true]
  split
  case h_1 x sf2 vs2 h2 h3 =>
    rw [hSF] at h2
    simp only [asStructFields, Option.some.injEq] at h2
    simp only [asStructVal, Option.some.injEq] at h3
    subst h2; subst h3
    cases h : parseFields conv join lookup joined sf vs <;> simp [h, Except.map]
  case h_2 x hne =>
    exact ((hne sf vs (by rw [hSF]; rfl) rfl).elim)

theorem recurseStruct_deepPtr (conv : String → String) (join : String → String → String)
    (lookup : String → Option String) (joined : String)
    (shape : TypeShape) (value : GoValue) (sf : List (FieldInfo × TypeShape)) (vs : List GoValue)
    (hSF : extractNonPointerFieldType shape = .structT sf)
    (hDeep : extractDeepestPotentialPointer value = .ptrV (some (.structV vs))) :
    recurseStruct conv join lookup joined shape value =
      (parseFields conv join lookup joined sf vs).map
        (fun vs2 => replaceDeepestTarget value (.structV vs2)) := by
  rw [recurseStruct.eq_def]
  rw [hDeep]
  simp only [GoValue.isPtrKind, isZero, Option.isNone, Bool.false_eq_true, if_false,
    Bool.true_eq_false, if_true]
  split
  case h_1 x sf2 vs2 h2 h3 =>
    rw [hSF] at h2
    simp only [asStructFields, Option.some.injEq] at h2
    simp only [asDeepBase, Option.some.injEq] at h3
    subst h2; subst h3
    cases h : parseFields conv join lookup joined sf vs <;> simp [h, Except.map]
  case h_2 x hne =>
    exact ((hne sf vs (by rw [hSF]; rfl) rfl).elim)

theorem recurseStruct_nilPtr (conv : String → String) (join : String → String → String)
    (lookup : String → Option String) (joined : String)
    (inner : TypeShape) (value : GoValue) (sf : List (FieldInfo × TypeShape))
    (hSF : extractNonPointerFieldType inner = .structT sf)
    (hDeep : extractDeepestPotentialPointer value = .ptrV none) :
    recurseStruct conv join lookup joined (.ptr inner) value =
      (parseFields conv join lookup joined sf (zeroValue.zeroValuesOf sf)).bind
        (fun vs2 => finishParsed (.ptr inner) value (.structV vs2)) := by
  rw [recurseStruct.eq_def]
  rw [hDeep]
  simp only [GoValue.isPtrKind, isZero, Option.isNone, Bool.false_eq_true, if_false,
    Bool.true_eq_false, if_true, elemShape]
  split
  case h_1 h5 => rw [hSF] at h5; simp [asStructFields] at h5
  case h_2 sf2 h5 =>
    rw [hSF] at h5
    simp only [asStructFields, Option.some.injEq] at h5
    subst h5
    cases h : parseFields conv join lookup joined sf (zeroValue.zeroValuesOf sf) <;>
      simp [h, Except.bind]

theorem parseFields_cons (conv : String → String) (join : String → String → String)
    (lookup : String → Option String) (pre : String) (info : FieldInfo)
    (shape : TypeShape) (value : GoValue)
    (restFields : List (FieldInfo × TypeShape)) (restValues : List GoValue) :
    parseFields conv join lookup pre ((info, shape) :: restFields) (value :: restValues) =
      (processField conv join lookup pre info shape value).bind
        (fun value2 => (parseFields conv join lookup pre restFields restValues).map
          (fun rest2 => value2 :: rest2)) := by
  rw [parseFields.eq_def]
  cases h : processField conv join lookup pre info shape value with
  | error e => simp [h, Except.bind]
  | ok v2 =>
    cases h2 : parseFields conv join lookup pre restFields restValues <;>
      simp [h, h2, Except.bind, Except.map]

/-! ## Further helper lemmas -/

theorem nonPtr_eq_self (shape : TypeShape) (hA : shape.isPtrKind = false) :
    extractNonPointerFieldType shape = shape := by
  cases shape <;> simp_all [TypeShape.isPtrKind, extractNonPointerFieldType]

theorem parseValue_ptr_embedded (inner : TypeShape)
    (h : (extractNonPointerFieldType inner).isStructKind = true) :
    ∀ s : List Char, parseValue (.ptr inner) s = .error .embeddedStruct := by
  intro s
  rw [parseValue]
  simp [h]

/-- For a field of non-struct, non-pointer kind, the decode step consults
the lookup only at the joined key derived for the field. -/
theorem processField_lookup_frame (conv : String → String) (join : String → String → String)
    (l1 l2 : String → Option String) (pre : String) (info : FieldInfo)
    (shape : TypeShape) (value : GoValue) (ek : String)
    (hKey : extractEnvKey conv info = .ok ek)
    (hS : shape.isStructKind = false) (hA : shape.isPtrKind = false)
    (hEq : l1 (join pre ek) = l2 (join pre ek)) :
    processField conv join l1 pre info shape value =
      processField conv join l2 pre info shape value := by
  have hnp : extractNonPointerFieldType shape = shape := nonPtr_eq_self shape hA
  have hNoEmb := parseValueNeEmbedded shape (by rw [hnp]; exact hS)
  rw [processField.eq_def, processField.eq_def]
  cases hInc : info.included with
  | false => simp [hInc]
  | true =>
    cases hLk : l1 (join pre ek) with
    | none =>
      have hLk2 : l2 (join pre ek) = none := by rw [← hEq, hLk]
      simp [hInc, hKey, hLk, hLk2, hS, hA]
    | some raw =>
      have hLk2 : l2 (join pre ek) = some raw := by rw [← hEq, hLk]
      cases hP : parseValue shape raw.data with
      | ok v => simp [hInc, hKey, hLk, hLk2, hP]
      | error e =>
        have hne : e ≠ .embeddedStruct := fun hcon => hNoEmb raw.data (by rw [hP, hcon])
        simp [hInc, hKey, hLk, hLk2, hP, hne]

/-- The element loop equals elementwise traversal followed by pointer
wrapping of each element. -/
theorem parseIntoArray_eq_mapM (pe : List Char → Except GoErr GoValue)
    (wrap : GoValue → GoValue) :
    ∀ rvs : List (List Char),
      parseIntoArray pe wrap rvs = (rvs.mapM pe).map (List.map wrap) := by
  intro rvs
  induction rvs with
  | nil => simp [parseIntoArray, List.mapM_nil, Except.map]; rfl
  | cons r rest ih =>
    rw [parseIntoArray, List.mapM_cons]
    cases h : pe r with
    | error e =>
      simp [h, ih, Except.map, Except.bind, Bind.bind, Functor.map]
    | ok v =>
      rw [ih]
      cases h2 : rest.mapM pe with
      | error e2 => simp [h, h2, Except.map, Except.bind, Bind.bind, Functor.map]
      | ok l => simp [h, h2, Except.map, Except.bind, Bind.bind, Functor.map, Pure.pure,
          Except.pure]

/-! ## Claim theorems -/

/-- C1 counterexample: the claim's splitter description, transcribed as
splitSpec, splits at every unescaped delimiter, so on the one-character
input consisting of the delimiter it yields two empty elements; the
source splitter yields one. The claim as stated is therefore false at
that input. -/
theorem C1_counterexample :
    splitString [','] ',' = [[]] ∧
    splitSpec [','] ',' = [[], []] ∧
    (splitString [','] ',' == splitSpec [','] ',') = false :=
  ⟨rfl, rfl, rfl⟩

/-- C1 (amended): for every delimiter other than the backslash escape
character, the splitter splits its input at every unescaped occurrence of
the delimiter, a backslash escaping the immediately following character
(including another backslash or the delimiter itself) and a trailing
unescaped backslash being retained literally — except that a trailing
unescaped delimiter does not produce a final empty element and empty
input yields the empty sequence; in particular, splitting on the comma
maps the claim's two example inputs to their stated element sequences. -/
theorem C1_splitter_amended :
    (∀ (l : List Char) (c : Char), c ≠ '\\' → splitString l c = splitSpecAmended l c) ∧
    splitString "a\\,b,c".data ',' = ["a,b".data, "c".data] ∧
    splitString "\\\\,\\\\,lol,lol\\\\foo".data ',' =
      ["\\".data, "\\".data, "lol".data, "lol\\foo".data] :=
  ⟨fun l c hc => splitString_eq_amended l c hc, rfl, rfl⟩

/-- C1 witness: the amended equivalence applied at a concrete input and
the comma delimiter. -/
theorem C1_witness :
    splitString "x,y\\,z".data ',' = splitSpecAmended "x,y\\,z".data ',' :=
  C1_splitter_amended.1 "x,y\\,z".data ',' (by decide)

/-- C2 counterexample: the entry of the raw map text consisting of a key,
one separating unescaped equals sign and a value followed by a second,
trailing unescaped equals sign has two unescaped equals signs, so by the
claim it must yield a FormatError; the code parses it successfully into a
one-entry map, because the splitter drops the trailing unescaped
delimiter. -/
theorem C2_counterexample :
    countUnescaped '=' "a=b=".data = 2 ∧
    parseValue (.mapT .str .str) "a=b=".data =
      .ok (.mapV (some [(.str "a".data, .str "b".data)])) :=
  ⟨rfl, rfl⟩

/-- C2 (amended): for every map-typed field, parsing splits the raw text
on unescaped commas into entries and each entry on unescaped equals signs
using the escape-aware splitter, whereby a trailing unescaped separator is
dropped; an entry whose split has exactly one component yields the
no-separator FormatError, more than two components the too-many
FormatError, an empty entry (zero components) the out-of-range access, and
exactly two components are parsed recursively as key and value against the
map's key and value shapes, failures being wrapped as ParseValue; in
particular the three example inputs of the claim behave as stated, the
error on the third being the no-separator FormatError (a ParseValue
subtype). -/
theorem C2_map_grammar_amended :
    (∀ (kt vt : TypeShape) (s : List Char),
      parseValue (.mapT kt vt) s = mapParseSpec kt vt s) ∧
    parseValue (.mapT .str (.intT 64)) "1=1,2=3".data =
      .ok (.mapV (some [(.str "1".data, .intV 1), (.str "2".data, .intV 3)])) ∧
    parseValue (.mapT .str (.intT 64)) "1=1=3,2=3".data =
      .error (.parseErr .mapTooManyEquals) ∧
    parseValue (.mapT .str (.intT 64)) "1=1,2=".data = .error (.parseErr .mapNoEquals) ∧
    GoErr.isFormatErr (.parseErr .mapTooManyEquals) = true ∧
    GoErr.isFormatErr (.parseErr .mapNoEquals) = true ∧
    GoErr.isParseValueErr (.parseErr .mapTooManyEquals) = true ∧
    GoErr.isParseValueErr (.parseErr .mapNoEquals) = true := by
  refine ⟨?_, rfl, rfl, rfl, rfl, rfl, rfl, rfl⟩
  intro kt vt s
  rw [parseValue, mapParseSpec]
  simp only
  rw [mapEntries_eq_spec]
  rw [splitString_eq_amended s ',' (by decide)]

/-- C3: for every included field whose raw text is present and parses
successfully to a value equal to the (non-pointer) type's zero value, the
decode step leaves the destination field unchanged, and the processing of
that field leaves every other field of the destination struct to its own
independent processing. -/
theorem C3_zero_result_preserves_default (conv : String → String)
    (join : String → String → String) (lookup : String → Option String) (pre : String)
    (info : FieldInfo) (shape : TypeShape) (v0 : GoValue) (ek raw : String) (v : GoValue)
    (hInc : info.included = true)
    (hKey : extractEnvKey conv info = .ok ek)
    (hLk : lookup (join pre ek) = some raw)
    (hP : parseValue shape raw.data = .ok v)
    (hz : isZero v = true) :
    processField conv join lookup pre info shape v0 = .ok v0 ∧
    ∀ (restFields : List (FieldInfo × TypeShape)) (restValues : List GoValue),
      parseFields conv join lookup pre ((info, shape) :: restFields) (v0 :: restValues) =
        (parseFields conv join lookup pre restFields restValues).map
          (fun tail => v0 :: tail) := by
  have h1 : processField conv join lookup pre info shape v0 = .ok v0 := by
    rw [processField_parsed conv join lookup pre info shape v0 ek raw v hInc hKey hLk hP]
    rw [finishParsed]
    simp [hz]
  refine ⟨h1, fun restFields restValues => ?_⟩
  rw [parseFields_cons, h1]
  cases h2 : parseFields conv join lookup pre restFields restValues <;>
    simp [h2, Except.bind, Except.map]

/-- C3 witness: a concrete int field with default 7 whose raw text parses
to zero is left unchanged. -/
theorem C3_witness :
    processField defaultKeyValueConverter defaultKeyJoiner
      (fun k => if k = "A_K" then some "0" else none) "A"
      ⟨"F", "K", "", true⟩ (.intT 64) (.intV 7) = .ok (.intV 7) :=
  (C3_zero_result_preserves_default defaultKeyValueConverter defaultKeyJoiner
    (fun k => if k = "A_K" then some "0" else none) "A"
    ⟨"F", "K", "", true⟩ (.intT 64) (.intV 7) "K" "0" (.intV 0)
    rfl rfl rfl rfl rfl).1

/-- C4 counterexample: an included pointer-to-int field with a derivable
key that is absent from the lookup is not skipped; the empty string is
parsed as the base int and decode fails with ParseValue, contradicting
the claim that decode does not fail merely because the value is absent. -/
theorem C4_counterexample :
    processField defaultKeyValueConverter defaultKeyJoiner (fun _ => none) ""
      ⟨"F", "K", "", true⟩ (.ptr (.intT 64)) (.ptrV none) = .error (.parseErr .plain) ∧
    GoErr.isParseValueErr (.parseErr .plain) = true := by
  refine ⟨?_, rfl⟩
  exact processField_absent_ptr_err defaultKeyValueConverter defaultKeyJoiner
    (fun _ => none) "" ⟨"F", "K", "", true⟩ (.ptr (.intT 64)) (.ptrV none) "K"
    (.parseErr .plain) rfl rfl rfl rfl rfl (by simp)

/-- C4 (amended): an included field with a derivable key absent from the
lookup is skipped without error and left unchanged when its kind is
neither struct nor pointer; a struct-shaped field is not skipped and its
children are processed under the extended prefix; a nil pointer-to-struct
field is not skipped and a fresh zero struct is recursed into; a
pointer-to-non-struct field is not skipped either: it parses the empty
string as its base type, which fails with ParseValue for an int base. -/
theorem C4_missing_value_amended :
    (∀ (conv : String → String) (join : String → String → String)
      (lookup : String → Option String) (pre : String) (info : FieldInfo)
      (shape : TypeShape) (value : GoValue) (ek : String),
      extractEnvKey conv info = .ok ek → lookup (join pre ek) = none →
      shape.isStructKind = false → shape.isPtrKind = false →
      processField conv join lookup pre info shape value = .ok value) ∧
    (∀ (conv : String → String) (join : String → String → String)
      (lookup : String → Option String) (pre : String) (info : FieldInfo)
      (sf : List (FieldInfo × TypeShape)) (vs : List GoValue) (ek : String),
      info.included = true → extractEnvKey conv info = .ok ek →
      lookup (join pre ek) = none →
      processField conv join lookup pre info (.structT sf) (.structV vs) =
        (parseFields conv join lookup (join pre ek) sf vs).map GoValue.structV) ∧
    (∀ (conv : String → String) (join : String → String → String)
      (lookup : String → Option String) (pre : String) (info : FieldInfo)
      (inner : TypeShape) (sf : List (FieldInfo × TypeShape)) (ek : String),
      info.included = true → extractEnvKey conv info = .ok ek →
      lookup (join pre ek) = none →
      extractNonPointerFieldType inner = .structT sf →
      processField conv join lookup pre info (.ptr inner) (.ptrV none) =
        (parseFields conv join lookup (join pre ek) sf (zeroValue.zeroValuesOf sf)).bind
          (fun vs2 => finishParsed (.ptr inner) (.ptrV none) (.structV vs2))) ∧
    processField defaultKeyValueConverter defaultKeyJoiner (fun _ => none) ""
      ⟨"F", "K", "", true⟩ (.ptr (.intT 64)) (.ptrV none) = .error (.parseErr .plain) := by
  refine ⟨?_, ?_, ?_, ?_⟩
  · intro conv join lookup pre info shape value ek hKey hLk hS hA
    exact processField_skip conv join lookup pre info shape value ek hKey hLk hS hA
  · intro conv join lookup pre info sf vs ek hInc hKey hLk
    rw [processField_embedded conv join lookup pre info (.structT sf) (.structV vs) ek hInc
      hKey (Or.inl rfl) (fun s => rfl)]
    exact recurseStruct_bare conv join lookup (join pre ek) (.structT sf) sf vs rfl
  · intro conv join lookup pre info inner sf ek hInc hKey hLk hSF
    rw [processField_embedded conv join lookup pre info (.ptr inner) (.ptrV none) ek hInc
      hKey (Or.inr rfl) (parseValue_ptr_embedded inner (by rw [hSF]; rfl))]
    exact recurseStruct_nilPtr conv join lookup (join pre ek) inner (.ptrV none) sf hSF rfl
  · exact processField_absent_ptr_err defaultKeyValueConverter defaultKeyJoiner
      (fun _ => none) "" ⟨"F", "K", "", true⟩ (.ptr (.intT 64)) (.ptrV none) "K"
      (.parseErr .plain) rfl rfl rfl rfl rfl (by simp)

/-- C4 witness: the skip clause applied to a concrete absent int field,
which is left unchanged. -/
theorem C4_witness :
    processField defaultKeyValueConverter defaultKeyJoiner (fun _ => none) ""
      ⟨"F", "K", "", true⟩ (.intT 64) (.intV 5) = .ok (.intV 5) :=
  C4_missing_value_amended.1 defaultKeyValueConverter defaultKeyJoiner (fun _ => none) ""
    ⟨"F", "K", "", true⟩ (.intT 64) (.intV 5) "K" rfl rfl rfl rfl

/-- C5 counterexample: a present raw value that parses successfully to
the zero base value on a one-deep pointer field leaves the field nil
instead of assigning a one-hop non-nil chain: the field's new value is
the nil pointer (zero), while the claim demands the non-nil wrapped
chain (non-zero). -/
theorem C5_counterexample :
    parseValue (.ptr (.intT 64)) "0".data = .ok (.intV 0) ∧
    processField defaultKeyValueConverter defaultKeyJoiner
      (fun k => if k = "K" then some "0" else none) ""
      ⟨"F", "K", "", true⟩ (.ptr (.intT 64)) (.ptrV none) = .ok (.ptrV none) ∧
    isZero (GoValue.ptrV none) = true ∧
    isZero (wrapChain (ptrDepth (.ptr (.intT 64))) (.intV 0)) = false := by
  refine ⟨rfl, ?_, rfl, rfl⟩
  rw [processField_parsed defaultKeyValueConverter defaultKeyJoiner
    (fun k => if k = "K" then some "0" else none) ""
    ⟨"F", "K", "", true⟩ (.ptr (.intT 64)) (.ptrV none) "K" "0" (.intV 0) rfl rfl rfl rfl]
  rfl

/-- C5 (amended): pointer wrapping is symmetric: a present raw value that
parses successfully to a non-zero base value is assigned as a fresh
non-nil pointer chain of exactly the static pointer depth of the declared
type, terminating in the parsed base value; a zero base value instead
leaves the field unchanged; and for a pointer-to-struct field already
holding a non-nil chain, the chain's deepest allocation is recursed into
in place, starting from its current field values (preserving defaults
beneath it) and keeping the chain. -/
theorem C5_pointer_wrapping_amended :
    (∀ (conv : String → String) (join : String → String → String)
      (lookup : String → Option String) (pre : String) (info : FieldInfo)
      (shape : TypeShape) (value : GoValue) (ek raw : String) (v : GoValue),
      info.included = true → extractEnvKey conv info = .ok ek →
      lookup (join pre ek) = some raw →
      parseValue shape raw.data = .ok v → isZero v = false →
      processField conv join lookup pre info shape value =
        .ok (wrapChain (ptrDepth shape) v)) ∧
    (∀ (shape : TypeShape) (v : GoValue),
      convertValueToPointerIfRequired shape v = wrapChain (ptrDepth shape) v) ∧
    (∀ (conv : String → String) (join : String → String → String)
      (lookup : String → Option String) (pre : String) (info : FieldInfo)
      (shape : TypeShape) (value : GoValue) (ek raw : String) (v : GoValue),
      info.included = true → extractEnvKey conv info = .ok ek →
      lookup (join pre ek) = some raw →
      parseValue shape raw.data = .ok v → isZero v = true →
      processField conv join lookup pre info shape value = .ok value) ∧
    (∀ (conv : String → String) (join : String → String → String)
      (lookup : String → Option String) (pre : String) (info : FieldInfo)
      (shape : TypeShape) (value : GoValue) (ek : String)
      (sf : List (FieldInfo × TypeShape)) (vs : List GoValue),
      info.included = true → extractEnvKey conv info = .ok ek →
      shape.isPtrKind = true →
      extractNonPointerFieldType shape = .structT sf →
      extractDeepestPotentialPointer value = .ptrV (some (.structV vs)) →
      processField conv join lookup pre info shape value =
        (parseFields conv join lookup (join pre ek) sf vs).map
          (fun vs2 => replaceDeepestTarget value (.structV vs2))) := by
  refine ⟨?_, convertEqWrapChain, ?_, ?_⟩
  · intro conv join lookup pre info shape value ek raw v hInc hKey hLk hP hz
    rw [processField_parsed conv join lookup pre info shape value ek raw v hInc hKey hLk hP]
    rw [finishParsed]
    simp only [hz, Bool.false_eq_true, if_false]
    rw [convertEqWrapChain]
  · intro conv join lookup pre info shape value ek raw v hInc hKey hLk hP hz
    rw [processField_parsed conv join lookup pre info shape value ek raw v hInc hKey hLk hP]
    rw [finishParsed]
    simp [hz]
  · intro conv join lookup pre info shape value ek sf vs hInc hKey hPtr hSF hDeep
    cases shape <;> simp only [TypeShape.isPtrKind, Bool.false_eq_true] at hPtr
    case ptr inner =>
      have hSF2 : extractNonPointerFieldType inner = .structT sf := hSF
      rw [processField_embedded conv join lookup pre info (.ptr inner) value ek hInc hKey
        (Or.inr rfl) (parseValue_ptr_embedded inner (by rw [hSF2]; rfl))]
      exact recurseStruct_deepPtr conv join lookup (join pre ek) (.ptr inner) value sf vs
        hSF hDeep

/-- C5 witness: a two-deep pointer int field with a present non-zero
value is assigned the fresh two-hop chain ending at the parsed base. -/
theorem C5_witness :
    processField defaultKeyValueConverter defaultKeyJoiner
      (fun k => if k = "K" then some "5" else none) ""
      ⟨"F", "K", "", true⟩ (.ptr (.ptr (.intT 64))) (.ptrV none) =
      .ok (.ptrV (some (.ptrV (some (.intV 5))))) :=
  C5_pointer_wrapping_amended.1 defaultKeyValueConverter defaultKeyJoiner
    (fun k => if k = "K" then some "5" else none) ""
    ⟨"F", "K", "", true⟩ (.ptr (.ptr (.intT 64))) (.ptrV none) "K" "5" (.intV 5)
    rfl rfl rfl rfl rfl

/-- C6 counterexample: a map field whose declared value type is a struct
does not yield UnsupportedType: with an entry present it yields the
unparsable-value ParseValue error, and with empty raw text it succeeds
with the empty map; a slice-valued map even parses successfully. The
claim's UnsupportedType behaviour holds only inside slices and arrays. -/
theorem C6_counterexample :
    parseValue (.mapT .str (.structT [])) "a=1".data = .error (.parseErr .mapBadValue) ∧
    GoErr.isUnsupported (.parseErr .mapBadValue) = false ∧
    parseValue (.mapT .str (.structT [])) "".data = .ok (.mapV (some [])) ∧
    parseValue (.mapT .str (.sliceT (.intT 64))) "a=1\\,2".data =
      .ok (.mapV (some [(.str "a".data, .sliceV (some [.intV 1, .intV 2]))])) :=
  ⟨rfl, rfl, rfl, rfl⟩

/-- C6 (amended): map parsing performs no element-type support check and
never yields UnsupportedType for any key shape, value shape and raw text:
a struct-valued map yields a ParseValue error when an entry's value is
parsed and an empty raw text an empty map, and a slice-valued map parses
entry values by the slice rules; UnsupportedType for struct, slice or
array element types is produced only inside a slice or array. -/
theorem C6_map_unsupported_amended :
    (∀ (kt vt : TypeShape) (s : List Char),
      isUnsupportedOutcome (parseValue (.mapT kt vt) s) = false) ∧
    parseValue (.mapT .str (.structT [])) "a=1".data = .error (.parseErr .mapBadValue) ∧
    parseValue (.mapT .str (.structT [])) "".data = .ok (.mapV (some [])) ∧
    parseValue (.mapT .str (.sliceT (.intT 64))) "a=1\\,2".data =
      .ok (.mapV (some [(.str "a".data, .sliceV (some [.intV 1, .intV 2]))])) ∧
    (∀ s : List Char, parseValue (.sliceT (.structT [])) s = .error .unsupportedType) ∧
    (∀ (n : Nat) (s : List Char),
      parseValue (.arrayT n (.structT [])) s = .error .unsupportedType) ∧
    (∀ s : List Char, parseValue (.sliceT (.sliceT (.intT 64))) s = .error .unsupportedType) ∧
    (∀ s : List Char,
      parseValue (.sliceT (.arrayT 2 (.intT 64))) s = .error .unsupportedType) := by
  refine ⟨?_, rfl, rfl, rfl, fun s => rfl, fun n s => rfl, fun s => rfl, fun s => rfl⟩
  intro kt vt s
  rw [parseValue]
  simp only
  have hcl := parseMapEntriesErrClass (parseValue kt) (parseValue vt) (splitString s ',') []
  cases hme : parseMapEntries (parseValue kt) (parseValue vt) (splitString s ',') [] with
  | error e =>
    rw [hme] at hcl
    simp only [hme, Except.map]
    cases e with
    | unsupportedType => exact absurd rfl hcl.2
    | _ => rfl
  | ok l => simp [hme, Except.map, isUnsupportedOutcome]

/-- C7: key derivation follows the strict priority: a non-empty explicit
env tag is used verbatim; otherwise a non-empty fallback key is passed
through the configured case-converter (by default charwise uppercasing);
with neither present the MissingKey error is returned; the default join
trims underscore boundary characters from both operands and joins with a
single underscore, an empty prefix yielding the local key unchanged; and
for non-struct, non-pointer fields the decode step consults the lookup
only at the join of prefix and derived local key. -/
theorem C7_key_derivation :
    (∀ (conv : String → String) (info : FieldInfo),
      info.envTag ≠ "" → extractEnvKey conv info = .ok info.envTag) ∧
    (∀ (conv : String → String) (info : FieldInfo),
      info.envTag = "" → info.fallbackKey ≠ "" →
      extractEnvKey conv info = .ok (conv info.fallbackKey)) ∧
    (∀ (conv : String → String) (info : FieldInfo),
      info.envTag = "" → info.fallbackKey = "" →
      extractEnvKey conv info = .error .missingKey) ∧
    (∀ info : FieldInfo, info.envTag = "" → info.fallbackKey ≠ "" →
      extractEnvKey defaultKeyValueConverter info =
        .ok ⟨info.fallbackKey.data.map Char.toUpper⟩) ∧
    (∀ k : String, defaultKeyJoiner "" k = k) ∧
    (∀ s1 s2 : String, s1 ≠ "" →
      defaultKeyJoiner s1 s2 = goTrimUnderscore s1 ++ "_" ++ goTrimUnderscore s2) ∧
    defaultKeyJoiner "foo_" "_bar" = "foo_bar" ∧
    defaultKeyJoiner "" "bar" = "bar" ∧
    defaultKeyValueConverter "sub_field" = "SUB_FIELD" ∧
    (∀ (conv : String → String) (join : String → String → String)
      (l1 l2 : String → Option String) (pre : String) (info : FieldInfo)
      (shape : TypeShape) (value : GoValue) (ek : String),
      extractEnvKey conv info = .ok ek →
      shape.isStructKind = false → shape.isPtrKind = false →
      l1 (join pre ek) = l2 (join pre ek) →
      processField conv join l1 pre info shape value =
        processField conv join l2 pre info shape value) := by
  refine ⟨?_, ?_, ?_, ?_, fun k => rfl, ?_, rfl, rfl, rfl, processField_lookup_frame⟩
  · intro conv info h
    rw [extractEnvKey]
    simp [h]
  · intro conv info h1 h2
    rw [extractEnvKey]
    simp [h1, h2]
  · intro conv info h1 h2
    rw [extractEnvKey]
    simp [h1, h2]
  · intro info h1 h2
    rw [extractEnvKey]
    simp [h1, h2]
    rfl
  · intro s1 s2 h
    rw [defaultKeyJoiner]
    simp [h]

/-- C7 witness: the priority and join clauses applied at concrete
inputs. -/
theorem C7_witness :
    extractEnvKey defaultKeyValueConverter ⟨"F", "tag_key", "fb", true⟩ = .ok "tag_key" ∧
    defaultKeyJoiner "p__" "_k_" = goTrimUnderscore "p__" ++ "_" ++ goTrimUnderscore "_k_" :=
  ⟨C7_key_derivation.1 defaultKeyValueConverter ⟨"F", "tag_key", "fb", true⟩ (by decide),
   C7_key_derivation.2.2.2.2.2.1 "p__" "_k_" (by decide)⟩

/-- C8: for every fixed-size array field with a supported element type,
the raw text is split on unescaped commas and the split count must equal
the declared length exactly: a mismatch yields the array-length
ParseValue error (not UnsupportedType), and a matching count parses each
element against the element type in order; in particular a 1-length int
array given the three-element raw text yields ParseValue and given a
single element succeeds. -/
theorem C8_array_length :
    (∀ (n : Nat) (et : TypeShape) (s : List Char), isSliceTypeSupported et = true →
      ((splitString s ',').length ≠ n →
        parseValue (.arrayT n et) s = .error (.parseErr .arrayLength)) ∧
      ((splitString s ',').length = n →
        parseValue (.arrayT n et) s =
          ((splitString s ',').mapM (parseValue et)).map
            (fun l => .arrayV (l.map (convertValueToPointerIfRequired et))))) ∧
    parseValue (.arrayT 1 (.intT 64)) "1,2,3".data = .error (.parseErr .arrayLength) ∧
    parseValue (.arrayT 1 (.intT 64)) "1".data = .ok (.arrayV [.intV 1]) ∧
    GoErr.isParseValueErr (.parseErr .arrayLength) = true ∧
    GoErr.isUnsupported (.parseErr .arrayLength) = false := by
  refine ⟨?_, rfl, rfl, rfl, rfl⟩
  intro n et s hsup
  constructor
  · intro hne
    rw [parseValue]
    simp [hsup, Ne.symm hne]
  · intro heq
    rw [parseValue]
    simp only [hsup, Bool.not_true, Bool.false_eq_true, if_false, heq.symm, ne_eq,
      not_true_eq_false]
    rw [parseIntoArray_eq_mapM]
    cases h : (splitString s ',').mapM (parseValue et) <;> simp [h, Except.map]

/-- C8 witness: the two general clauses applied to the 1-length int array
at the claim's inputs. -/
theorem C8_witness :
    parseValue (.arrayT 1 (.intT 64)) "7,8".data = .error (.parseErr .arrayLength) ∧
    parseValue (.arrayT 1 (.intT 64)) "7".data =
      (["7".data].mapM (parseValue (.intT 64))).map
        (fun l => .arrayV (l.map (convertValueToPointerIfRequired (.intT 64)))) :=
  ⟨(C8_array_length.1 1 (.intT 64) "7,8".data rfl).1 (by decide),
   (C8_array_length.1 1 (.intT 64) "7".data rfl).2 rfl⟩

/-- C9: a bool field accepts exactly the case-insensitive literals of
true and false, decoding to the corresponding boolean, and every other
input yields ParseValue with no truthy coercion; in particular the
numeral one and the word yes are rejected. -/
theorem C9_bool_strict :
    (∀ s : List Char,
      (parseValue .boolT s = .ok (.boolV true) ↔ s.map Char.toLower = "true".data) ∧
      (parseValue .boolT s = .ok (.boolV false) ↔ s.map Char.toLower = "false".data) ∧
      (s.map Char.toLower ≠ "true".data → s.map Char.toLower ≠ "false".data →
        parseValue .boolT s = .error (.parseErr .plain))) ∧
    parseValue .boolT "1".data = .error (.parseErr .plain) ∧
    parseValue .boolT "yes".data = .error (.parseErr .plain) ∧
    parseValue .boolT "TRUE".data = .ok (.boolV true) ∧
    parseValue .boolT "fAlSe".data = .ok (.boolV false) := by
  refine ⟨?_, rfl, rfl, rfl, rfl⟩
  intro s
  have htl : ("true".data.map Char.toLower) = "true".data := by decide
  have hfl : ("false".data.map Char.toLower) = "false".data := by decide
  have htf : ("true".data : List Char) ≠ "false".data := by decide
  rw [parseValue]
  simp only [eqFold, htl, hfl]
  by_cases h1 : s.map Char.toLower = "true".data
  · simp [h1, htf]
  · by_cases h2 : s.map Char.toLower = "false".data
    · simp [h1, h2]
    · simp [h1, h2]

/-- C9 witness: the rejection clause applied at a concrete non-boolean
input. -/
theorem C9_witness :
    parseValue .boolT "on".data = .error (.parseErr .plain) :=
  (C9_bool_strict.1 "on".data).2.2 (by decide) (by decide)

/-- C10: map parsing is not total in the claimed sense: the raw text with
an empty entry between two commas splits into an entry whose equals-split
is the empty sequence, and the code then indexes component zero of that
empty split, an out-of-range access modelled as the panic outcome, which
is neither a decoded map nor one of the wrapped error classes. -/
theorem C10_empty_entry_panics :
    parseValue (.mapT .str (.intT 64)) "a=1,,b=2".data = .error .panicked ∧
    splitString "a=1,,b=2".data ',' = ["a=1".data, [], "b=2".data] ∧
    splitString [] '=' = [] ∧
    GoErr.isParseValueErr .panicked = false ∧
    GoErr.isUnsupported .panicked = false ∧
    GoErr.isFormatErr .panicked = false :=
  ⟨rfl, rfl, rfl, rfl, rfl, rfl⟩

end YagclEnv
